import Mathlib

/-!
Shallow embedding of pupdate (src/main.rs): a fleet-update orchestrator that
spawns one concurrent unit per remote target, awaits all of them in spawn
order, aggregates a failed-target list, optionally writes per-target log
files under a run-scoped directory, and finally runs a local apt-get update
step. External command execution and filesystem writes are modelled by
explicit environment records; the `?` early returns of the Rust code are
modelled with `Except`.
-/

/-- Captured result of one finished external command (std::process::Output):
the exit-status success flag and the raw bytes of both output streams. -/
structure Output where
  success : Bool
  stdout : List Nat
  stderr : List Nat
deriving DecidableEq

/-- The error kinds a per-target unit can early-return with through the
operator in main.rs: the spawned command itself could not be started
(transport), or a log file could not be created or written (logWrite). -/
inductive PupdateError where
  | transport
  | logWrite
deriving DecidableEq

deriving instance DecidableEq for Except

/-- The result of trying to spawn one external command: either the spawn
itself failed (Command output returning Err, the transport error case) or
the process ran to completion with the given captured output. -/
inductive SpawnResult where
  | spawnFailed
  | ran (out : Output)
deriving DecidableEq

/-- A filesystem path, modelled as its list of components. -/
abbrev FsPath := List String

/-- PathBuf::join with a single further component. -/
def pathJoin (p : FsPath) (s : String) : FsPath := p ++ [s]

/-- The environment one remote unit runs against: the result of spawning
ssh remote sudo-pupdate (error means the process could not be spawned, i.e.
a transport error; ok carries the finished process output), and whether
creating-and-writing each of the two per-target log files succeeds. -/
structure RemoteCtx where
  cmd : SpawnResult
  stdoutWriteOk : Bool
  stderrWriteOk : Bool
deriving DecidableEq

/-- pupdate_remote from main.rs: runs ssh against the remote; on spawn
failure returns early with a transport error. Otherwise, when a log
directory is configured, creates remote.stdout.log and remote.stderr.log
under it and writes the captured streams; a creation or write failure
returns early with a logWrite error. Returns the list of log files fully
written, paired with the unit result: ok (remote, success) on the normal
path, where success is the exit status of the remote command. -/
def pupdateRemote (remote : String) (logDir : Option FsPath) (ctx : RemoteCtx) :
    List (FsPath × List Nat) × Except PupdateError (String × Bool) :=
  match ctx.cmd with
  | .spawnFailed => ([], .error .transport)
  | .ran out =>
    match logDir with
    | none => ([], .ok (remote, out.success))
    | some dir =>
      if ctx.stdoutWriteOk then
        let f1 := (pathJoin dir (remote ++ ".stdout.log"), out.stdout)
        if ctx.stderrWriteOk then
          ([f1, (pathJoin dir (remote ++ ".stderr.log"), out.stderr)],
            .ok (remote, out.success))
        else
          ([f1], .error .logWrite)
      else
        ([], .error .logWrite)

/-- The inner log function of pupdate_apt: when a log directory is
configured it creates local.stdout.log and local.stderr.log and writes every
output's stream into the matching file in order, so each file holds the
concatenation of the corresponding streams of all attempted sub-commands; a
creation or write failure returns early with a logWrite error (the two Bool
flags model whether each file's creation and writes succeed). It then scans
the outputs and returns false iff some output had a non-success status. -/
def aptLog (outputs : List Output) (logDir : Option FsPath)
    (stdoutWriteOk stderrWriteOk : Bool) :
    List (FsPath × List Nat) × Except PupdateError Bool :=
  let verdict : Except PupdateError Bool := .ok (outputs.all (fun o => o.success))
  match logDir with
  | none => ([], verdict)
  | some dir =>
    if stdoutWriteOk then
      let f1 := (pathJoin dir "local.stdout.log", (outputs.map Output.stdout).flatten)
      if stderrWriteOk then
        ([f1, (pathJoin dir "local.stderr.log", (outputs.map Output.stderr).flatten)],
          verdict)
      else
        ([f1], .error .logWrite)
    else
      ([], .error .logWrite)

/-- The environment the local update step runs against: results of spawning
sudo apt-get update and sudo apt-get upgrade -y, and the log-write flags. -/
structure LocalCtx where
  updateCmd : SpawnResult
  upgradeCmd : SpawnResult
  stdoutWriteOk : Bool
  stderrWriteOk : Bool
deriving DecidableEq

/-- What one invocation of pupdate_apt did: whether the upgrade command was
spawned, the log files written, and the returned result. -/
structure AptRun where
  invokedUpgrade : Bool
  files : List (FsPath × List Nat)
  result : Except PupdateError Bool
deriving DecidableEq

/-- pupdate_apt from main.rs: runs sudo apt-get update; if its status is
non-success, logs just that output and returns its verdict (false) without
spawning the upgrade command; otherwise runs sudo apt-get upgrade -y and
logs both outputs concatenated. A spawn failure of either command returns
early with a transport error. -/
def pupdateApt (logDir : Option FsPath) (ctx : LocalCtx) : AptRun :=
  match ctx.updateCmd with
  | .spawnFailed => ⟨false, [], .error .transport⟩
  | .ran updateOut =>
    if updateOut.success then
      match ctx.upgradeCmd with
      | .spawnFailed => ⟨true, [], .error .transport⟩
      | .ran upgradeOut =>
        let lg := aptLog [updateOut, upgradeOut] logDir ctx.stdoutWriteOk ctx.stderrWriteOk
        ⟨true, lg.1, lg.2⟩
    else
      let lg := aptLog [updateOut] logDir ctx.stdoutWriteOk ctx.stderrWriteOk
      ⟨false, lg.1, lg.2⟩

/-- The observable events of one run, in program order: progress-reporter
calls (a per-target progress bar created and started, the overall bar
ticked, the final summary printed) and the control-flow landmarks (a unit
spawned, a unit's await completed, the local step started and finished). -/
inductive Event where
  | reporterStart (remote : String)
  | remoteSpawn (remote : String)
  | overallTick
  | remoteDone (remote : String)
  | summaryPrinted (succeeded : Nat) (failed : List String)
  | localStart
  | localDone (success : Bool)
deriving DecidableEq

/-- The await loop of main: awaits each spawned unit in spawn order; a unit
returning Err makes the loop early-return that error through the operator
(abandoning the remaining awaits), a unit returning ok (remote, success)
appends remote to the failed list when success is false. Returns the
remoteDone event of every unit actually awaited, paired with either the
propagated error or the failed list in push order. -/
def awaitLoop : List (String × Except PupdateError (String × Bool)) →
    List Event × Except PupdateError (List String)
  | [] => ([], .ok [])
  | (r, res) :: rest =>
    match res with
    | .error e => ([.remoteDone r], .error e)
    | .ok p =>
      let tail := awaitLoop rest
      (.remoteDone r :: tail.1,
        tail.2.map (fun failed => if p.2 then failed else p.1 :: failed))

/-- The summary printing at the end of the remote section: reached (and
printed exactly once) only when the await loop returned its failed list
rather than early-returning an error; it reports the success count as the
total minus the number of failures, then the failed list. -/
def summaryEvents (total : Nat) : Except PupdateError (List String) → List Event
  | .error _ => []
  | .ok failed => [.summaryPrinted (total - failed.length) failed]

/-- The remote section of main: skipped entirely when the remote list is
empty; otherwise it creates and starts one progress bar per remote while
spawning that remote's unit, ticks the overall bar, awaits every unit in
spawn order, and, if the await loop completed without an error, prints the
summary line with the count of successes and the failed list. The section's
result is the await loop's result: a propagated unit error or the failed
list. -/
def remotePhase (logDir : Option FsPath) (remotes : List (String × RemoteCtx)) :
    List Event × Except PupdateError (List String) :=
  if remotes.length = 0 then ([], .ok [])
  else
    let aw := awaitLoop (remotes.map (fun rc => (rc.1, (pupdateRemote rc.1 logDir rc.2).2)))
    (remotes.flatMap (fun rc => [Event.reporterStart rc.1, Event.remoteSpawn rc.1])
        ++ [Event.overallTick] ++ aw.1 ++ summaryEvents remotes.length aw.2,
      aw.2)

/-- The log files written by the spawned remote units of one run: every
spawned unit runs to completion concurrently and writes its own files,
independently of where the await loop stops. -/
def remoteFiles (logDir : Option FsPath) (remotes : List (String × RemoteCtx)) :
    List (FsPath × List Nat) :=
  remotes.flatMap (fun rc => (pupdateRemote rc.1 logDir rc.2).1)

/-- The local section of main: prints the start message, runs pupdate_apt,
and either propagates its error or finishes reporting its verdict. -/
def localPhase (logDir : Option FsPath) (ctx : LocalCtx) :
    List Event × Except PupdateError Unit :=
  match (pupdateApt logDir ctx).result with
  | .error e => ([.localStart], .error e)
  | .ok b => ([.localStart, .localDone b], .ok ())

/-- The command-line switches of main that govern which phases run. -/
structure Args where
  localOnly : Bool
  skipLocal : Bool
deriving DecidableEq

/-- The run-scoped log directory computed once by main: the configured base
directory joined with the run's start timestamp (none when logging is
disabled). -/
def runLogDir (base : Option FsPath) (timestamp : String) : Option FsPath :=
  base.map (fun d => pathJoin d timestamp)

/-- main after configuration loading: computes the run-scoped log directory
once, runs the remote section unless local-only, then the local section
unless skip-local. Any Err from an awaited unit or from pupdate_apt
propagates through the operator and ends main early with that error;
otherwise main returns ok () whatever the per-target verdicts were. -/
def mainModel (args : Args) (base : Option FsPath) (timestamp : String)
    (remotes : List (String × RemoteCtx)) (lctx : LocalCtx) :
    List Event × Except PupdateError Unit :=
  let logDir := runLogDir base timestamp
  let rp := if args.localOnly then ([], Except.ok []) else remotePhase logDir remotes
  match rp.2 with
  | .error e => (rp.1, .error e)
  | .ok _ =>
    if args.skipLocal then (rp.1, .ok ())
    else
      let lp := localPhase logDir lctx
      (rp.1 ++ lp.1, lp.2)

/-- The remotes among a per-target result list that reported failure, kept
in list order (the order the await loop pushes them). -/
def failedOf (results : List (String × Bool)) : List String :=
  (results.filter (fun p => !p.2)).map Prod.fst

/-- The remotes among a per-target result list that reported success. -/
def succeededOf (results : List (String × Bool)) : List String :=
  (results.filter (fun p => p.2)).map Prod.fst

/-- Encode a list of ordinary per-target verdicts as the task results the
await loop consumes (every unit returned ok). -/
def okTasks (results : List (String × Bool)) :
    List (String × Except PupdateError (String × Bool)) :=
  results.map (fun p => (p.1, Except.ok p))

/-- The await loop over units that all returned ordinary verdicts produces
one remoteDone event per unit, in spawn order, and the failed list of the
verdicts, in input order. -/
theorem awaitLoop_okTasks (results : List (String × Bool)) :
    awaitLoop (okTasks results) =
      (results.map (fun p => Event.remoteDone p.1), Except.ok (failedOf results)) := by
  induction results with
  | nil => rfl
  | cons p rest ih =>
    simp only [okTasks, List.map_cons] at ih ⊢
    simp only [awaitLoop, ih, failedOf, List.filter_cons]
    cases hp : p.2 <;> simp [failedOf, Except.map]

/-- If every awaited unit returned an ordinary verdict, the await loop does
not early-return: it produces some failed list. -/
theorem awaitLoop_allOk (tasks : List (String × Except PupdateError (String × Bool)))
    (h : ∀ t ∈ tasks, ∃ p, t.2 = Except.ok p) :
    ∃ f, (awaitLoop tasks).2 = Except.ok f := by
  induction tasks with
  | nil => exact ⟨[], rfl⟩
  | cons t ts ih =>
    obtain ⟨p, hp⟩ := h t (List.mem_cons_self t ts)
    obtain ⟨f, hf⟩ := ih (fun x hx => h x (List.mem_cons_of_mem t hx))
    obtain ⟨r, res⟩ := t
    replace hp : res = Except.ok p := hp
    subst hp
    exact ⟨if p.2 then f else p.1 :: f, by simp [awaitLoop, hf, Except.map]⟩

/-- When the await loop completed without an early return, every unit in its
input was awaited: its remoteDone event is among the produced events. -/
theorem awaitLoop_ok_done (tasks : List (String × Except PupdateError (String × Bool))) :
    ∀ f, (awaitLoop tasks).2 = Except.ok f →
      ∀ t ∈ tasks, Event.remoteDone t.1 ∈ (awaitLoop tasks).1 := by
  induction tasks with
  | nil => simp
  | cons t ts ih =>
    intro f hf x hx
    obtain ⟨r, res⟩ := t
    cases res with
    | error e => simp [awaitLoop] at hf
    | ok p =>
      simp only [awaitLoop] at hf ⊢
      rcases List.mem_cons.mp hx with rfl | hx
      · exact List.mem_cons_self _ _
      · rcases h2 : (awaitLoop ts).2 with e2 | f2
        · rw [h2] at hf; simp [Except.map] at hf
        · exact List.mem_cons_of_mem _ (ih f2 h2 x hx)

/-- Every event the await loop emits is a remoteDone event. -/
theorem awaitLoop_events_remoteDone (tasks : List (String × Except PupdateError (String × Bool))) :
    ∀ e ∈ (awaitLoop tasks).1, ∃ r, e = Event.remoteDone r := by
  induction tasks with
  | nil => simp [awaitLoop]
  | cons t ts ih =>
    obtain ⟨r, res⟩ := t
    cases res with
    | error e => simp [awaitLoop]
    | ok p =>
      intro e he
      simp only [awaitLoop, List.mem_cons] at he
      rcases he with rfl | he
      · exact ⟨r, rfl⟩
      · exact ih e he

/-- The remote section never emits the localStart event. -/
theorem remotePhase_no_localStart (logDir : Option FsPath)
    (remotes : List (String × RemoteCtx)) :
    Event.localStart ∉ (remotePhase logDir remotes).1 := by
  intro hmem
  by_cases hlen : remotes.length = 0
  · simp [remotePhase, hlen] at hmem
  · rw [remotePhase, if_neg hlen] at hmem
    simp only [List.mem_append, List.mem_flatMap, List.mem_cons,
      List.mem_singleton] at hmem
    rcases hmem with ((⟨rc, _, hrc⟩ | hmem) | hmem) | hmem
    · rcases hrc with hrc | hrc | hrc <;> simp_all
    · simp_all
    · obtain ⟨r, hr⟩ := awaitLoop_events_remoteDone _ _ hmem
      simp at hr
    · rcases haw : (awaitLoop (remotes.map
          (fun rc => (rc.1, (pupdateRemote rc.1 logDir rc.2).2)))).2 with e | f <;>
        rw [haw] at hmem <;> simp [summaryEvents] at hmem

/-- C3: for every non-empty target list whose run completes without
interruption (every unit returned an ordinary verdict), the await loop
produces the failed list, the printed success count plus the number of
failed targets equals the number of targets, and the succeeded and failed
partitions together are exactly the input targets, each exactly once. -/
theorem summaryPartitionsTargets (results : List (String × Bool))
    (hne : results ≠ []) :
    (awaitLoop (okTasks results)).2 = Except.ok (failedOf results) ∧
    (results.length - (failedOf results).length) + (failedOf results).length
      = results.length ∧
    (succeededOf results ++ failedOf results).Perm (results.map Prod.fst) := by
  refine ⟨by simp [awaitLoop_okTasks], ?_, ?_⟩
  · have h : (failedOf results).length ≤ results.length := by
      simpa [failedOf] using List.length_filter_le (fun p => !p.2) results
    omega
  · have hsplit : succeededOf results ++ failedOf results
        = (results.filter (fun p => p.2) ++ results.filter (fun p => !p.2)).map
            Prod.fst := by
      simp [succeededOf, failedOf]
    rw [hsplit]
    exact (List.filter_append_perm (fun p => p.2) results).map Prod.fst

/-- C3 witness: the partition invariant at a concrete two-target run with
one success and one failure. -/
theorem summaryPartitionsTargetsWitness :
    (awaitLoop (okTasks [("a", true), ("b", false)])).2
        = Except.ok (failedOf [("a", true), ("b", false)]) ∧
    (([("a", true), ("b", false)] : List (String × Bool)).length
        - (failedOf [("a", true), ("b", false)]).length)
        + (failedOf [("a", true), ("b", false)]).length
      = ([("a", true), ("b", false)] : List (String × Bool)).length ∧
    (succeededOf [("a", true), ("b", false)]
        ++ failedOf [("a", true), ("b", false)]).Perm
      (([("a", true), ("b", false)] : List (String × Bool)).map Prod.fst) :=
  summaryPartitionsTargets [("a", true), ("b", false)] (by simp)

/-- C5: permuting the input target list of an uninterrupted run leaves the
set of failed targets and the set of succeeded targets unchanged (the
lists are permutations of each other; only report order can differ). -/
theorem partitionOrderIndependence (results results2 : List (String × Bool))
    (h : results.Perm results2) :
    (awaitLoop (okTasks results)).2 = Except.ok (failedOf results) ∧
    (awaitLoop (okTasks results2)).2 = Except.ok (failedOf results2) ∧
    (failedOf results).Perm (failedOf results2) ∧
    (succeededOf results).Perm (succeededOf results2) := by
  refine ⟨by simp [awaitLoop_okTasks], by simp [awaitLoop_okTasks], ?_, ?_⟩
  · exact (List.Perm.filter _ h).map _
  · exact (List.Perm.filter _ h).map _

/-- C5 witness: swapping two targets leaves the failed and succeeded sets
unchanged at a concrete input. -/
theorem partitionOrderIndependenceWitness :
    (awaitLoop (okTasks [("a", true), ("b", false)])).2
        = Except.ok (failedOf [("a", true), ("b", false)]) ∧
    (awaitLoop (okTasks [("b", false), ("a", true)])).2
        = Except.ok (failedOf [("b", false), ("a", true)]) ∧
    (failedOf [("a", true), ("b", false)]).Perm
        (failedOf [("b", false), ("a", true)]) ∧
    (succeededOf [("a", true), ("b", false)]).Perm
        (succeededOf [("b", false), ("a", true)]) :=
  partitionOrderIndependence [("a", true), ("b", false)] [("b", false), ("a", true)]
    (by decide)

/-- C9: an empty target list with local updates disabled makes the run
return immediately with success: no unit is spawned, no progress-reporter
call is made, no event at all is emitted. -/
theorem emptyRunReturnsImmediately (base : Option FsPath) (timestamp : String)
    (lctx : LocalCtx) :
    mainModel ⟨false, true⟩ base timestamp [] lctx = ([], Except.ok ()) := rfl

/-- C10: the failed-target list of an uninterrupted run lists the failed
targets in input (spawn) order — it is an order-preserving sublist of the
input target list — independently of the order the units completed in. -/
theorem failedListInInputOrder (results : List (String × Bool)) :
    (awaitLoop (okTasks results)).2 = Except.ok (failedOf results) ∧
    (failedOf results).Sublist (results.map Prod.fst) := by
  refine ⟨by simp [awaitLoop_okTasks], ?_⟩
  have h : (results.filter (fun p => !p.2)).Sublist results := List.filter_sublist results
  simpa [failedOf] using h.map Prod.fst

/-- A remote whose update command runs and exits successfully. -/
def ctxSuccess : RemoteCtx := ⟨.ran ⟨true, [], []⟩, true, true⟩

/-- A remote whose update command runs but exits with non-zero status. -/
def ctxFailure : RemoteCtx := ⟨.ran ⟨false, [], []⟩, true, true⟩

/-- A remote whose ssh invocation cannot be spawned (transport error). -/
def ctxNoSpawn : RemoteCtx := ⟨.spawnFailed, true, true⟩

/-- A remote whose update succeeded but whose stdout log file cannot be
created or written. -/
def ctxLogFail : RemoteCtx := ⟨.ran ⟨true, [7], [8]⟩, false, true⟩

/-- A local environment where both apt-get commands run successfully and
all log writes succeed. -/
def lctxOk : LocalCtx := ⟨.ran ⟨true, [], []⟩, .ran ⟨true, [], []⟩, true, true⟩

/-- C1 counterexample: with targets a (success), b (ordinary failure) and
c (transport error), the orchestrator does not complete with the summary
total 3, succeeded 1, failed [b, c]: the await loop re-raises the transport
error through the double try operator, main ends with that error, and the
summary event for failed [b, c] is never emitted. -/
theorem transportErrorScenarioCex :
    (remotePhase none [("a", ctxSuccess), ("b", ctxFailure), ("c", ctxNoSpawn)]).2
        = Except.error PupdateError.transport ∧
    (remotePhase none [("a", ctxSuccess), ("b", ctxFailure), ("c", ctxNoSpawn)]).2
        ≠ Except.ok ["b", "c"] ∧
    Event.summaryPrinted 1 ["b", "c"]
        ∉ (remotePhase none [("a", ctxSuccess), ("b", ctxFailure), ("c", ctxNoSpawn)]).1 ∧
    (mainModel ⟨false, false⟩ none "ts"
        [("a", ctxSuccess), ("b", ctxFailure), ("c", ctxNoSpawn)] lctxOk).2
      = Except.error PupdateError.transport := by
  refine ⟨rfl, by decide, by decide, rfl⟩

/-- C1 amended: a TransportError from the executor for one target is not
contained: pupdate_remote returns it as Err, and the await loop re-raises
the first Err it meets out of the orchestrator through the double try
operator, abandoning the remaining awaits, so the run ends in an error and
no summary is produced (its event list carries no summaryPrinted event). -/
theorem transportErrorReRaised (pre : List (String × Bool)) (r : String)
    (ctx : RemoteCtx) (logDir : Option FsPath)
    (rest : List (String × Except PupdateError (String × Bool)))
    (hc : ctx.cmd = SpawnResult.spawnFailed) :
    (pupdateRemote r logDir ctx).2 = Except.error PupdateError.transport ∧
    (awaitLoop (okTasks pre ++ (r, (pupdateRemote r logDir ctx).2) :: rest)).2
        = Except.error PupdateError.transport := by
  have h1 : (pupdateRemote r logDir ctx).2 = Except.error PupdateError.transport := by
    simp [pupdateRemote, hc]
  refine ⟨h1, ?_⟩
  rw [h1]
  induction pre with
  | nil => rfl
  | cons p ps ih =>
    simp only [okTasks, List.map_cons, List.cons_append, awaitLoop] at ih ⊢
    simp [ih, Except.map]

/-- C1 amended witness: the re-raise at the concrete scenario of the claim,
with c the transport-error target awaited after a and b. -/
theorem transportErrorReRaisedWitness :
    (pupdateRemote "c" none ctxNoSpawn).2 = Except.error PupdateError.transport ∧
    (awaitLoop (okTasks [("a", true), ("b", false)]
        ++ ("c", (pupdateRemote "c" none ctxNoSpawn).2) :: [])).2
      = Except.error PupdateError.transport :=
  transportErrorReRaised [("a", true), ("b", false)] "c" ctxNoSpawn none [] rfl

/-- C2 counterexample: target a completed its update successfully, but its
stdout log cannot be written; pupdate_remote turns the already-computed
verdict into Err, and the orchestrator aborts with that error instead of
aggregating the remaining target b, so the claim fails on the code. -/
theorem logWriteFailureScenarioCex :
    (pupdateRemote "a" (some ["logs"]) ctxLogFail).2
        = Except.error PupdateError.logWrite ∧
    (pupdateRemote "a" (some ["logs"]) ctxLogFail).2 ≠ Except.ok ("a", true) ∧
    (remotePhase (some ["logs"]) [("a", ctxLogFail), ("b", ctxSuccess)]).2
        = Except.error PupdateError.logWrite ∧
    (mainModel ⟨false, false⟩ (some ["logs"]) "ts"
        [("a", ctxLogFail), ("b", ctxSuccess)] lctxOk).2
      = Except.error PupdateError.logWrite := by
  refine ⟨rfl, by decide, rfl, rfl⟩

/-- C2 amended: a failure to write a completed target's captured output
replaces that target's computed verdict with Err in pupdate_remote's
return value, and the await loop re-raises it, aborting the orchestrator
before the remaining awaits. -/
theorem logWriteFailureAborts (r : String) (out : Output) (ctx : RemoteCtx)
    (dir : FsPath) (rest : List (String × Except PupdateError (String × Bool)))
    (hcmd : ctx.cmd = SpawnResult.ran out)
    (hw : ctx.stdoutWriteOk = false ∨ ctx.stderrWriteOk = false) :
    (pupdateRemote r (some dir) ctx).2 = Except.error PupdateError.logWrite ∧
    (awaitLoop ((r, (pupdateRemote r (some dir) ctx).2) :: rest)).2
        = Except.error PupdateError.logWrite := by
  have h1 : (pupdateRemote r (some dir) ctx).2 = Except.error PupdateError.logWrite := by
    rcases hw with hw | hw <;>
      cases hs : ctx.stdoutWriteOk <;>
      simp_all [pupdateRemote, hcmd]
  refine ⟨h1, ?_⟩
  rw [h1]
  rfl

/-- C2 amended witness: the abort at a concrete completed-but-unloggable
target followed by one more target. -/
theorem logWriteFailureAbortsWitness :
    (pupdateRemote "a" (some ["logs"]) ctxLogFail).2
        = Except.error PupdateError.logWrite ∧
    (awaitLoop (("a", (pupdateRemote "a" (some ["logs"]) ctxLogFail).2)
        :: okTasks [("b", true)])).2
      = Except.error PupdateError.logWrite :=
  logWriteFailureAborts "a" ⟨true, [7], [8]⟩ ctxLogFail ["logs"]
    (okTasks [("b", true)]) rfl (Or.inl rfl)

/-- C4: on the local path, when apt-get update ran and reported a non-zero
status, apt-get upgrade is never spawned, the outcome is failure, and only
the first command's output is logged; when the check succeeded and the
upgrade ran, the upgrade was spawned and both commands' outputs are logged
concatenated, stream by stream. -/
theorem localShortCircuit (ctx : LocalCtx) (dir : FsPath) (u : Output)
    (hupd : ctx.updateCmd = SpawnResult.ran u)
    (hw1 : ctx.stdoutWriteOk = true) (hw2 : ctx.stderrWriteOk = true) :
    (u.success = false →
      (pupdateApt (some dir) ctx).invokedUpgrade = false ∧
      (pupdateApt (some dir) ctx).result = Except.ok false ∧
      (pupdateApt (some dir) ctx).files
        = [(pathJoin dir "local.stdout.log", u.stdout),
           (pathJoin dir "local.stderr.log", u.stderr)]) ∧
    (∀ g : Output, u.success = true → ctx.upgradeCmd = SpawnResult.ran g →
      (pupdateApt (some dir) ctx).invokedUpgrade = true ∧
      (pupdateApt (some dir) ctx).files
        = [(pathJoin dir "local.stdout.log", u.stdout ++ g.stdout),
           (pathJoin dir "local.stderr.log", u.stderr ++ g.stderr)]) := by
  constructor
  · intro hu
    simp [pupdateApt, hupd, hu, aptLog, hw1, hw2]
  · intro g hu hg
    simp [pupdateApt, hupd, hu, hg, aptLog, hw1, hw2]

/-- C4 witness: a concrete local environment whose update check fails:
the upgrade command is not spawned, the verdict is failure, and only the
update output is logged. -/
theorem localShortCircuitWitness :
    ((Output.success ⟨false, [1], [2]⟩ = false →
      (pupdateApt (some ["d"])
          ⟨.ran ⟨false, [1], [2]⟩, .ran ⟨true, [3], [4]⟩, true, true⟩).invokedUpgrade
        = false ∧
      (pupdateApt (some ["d"])
          ⟨.ran ⟨false, [1], [2]⟩, .ran ⟨true, [3], [4]⟩, true, true⟩).result
        = Except.ok false ∧
      (pupdateApt (some ["d"])
          ⟨.ran ⟨false, [1], [2]⟩, .ran ⟨true, [3], [4]⟩, true, true⟩).files
        = [(pathJoin ["d"] "local.stdout.log", Output.stdout ⟨false, [1], [2]⟩),
           (pathJoin ["d"] "local.stderr.log", Output.stderr ⟨false, [1], [2]⟩)]) ∧
    (∀ g : Output, Output.success ⟨false, [1], [2]⟩ = true →
      LocalCtx.upgradeCmd ⟨.ran ⟨false, [1], [2]⟩, .ran ⟨true, [3], [4]⟩, true, true⟩
        = SpawnResult.ran g →
      (pupdateApt (some ["d"])
          ⟨.ran ⟨false, [1], [2]⟩, .ran ⟨true, [3], [4]⟩, true, true⟩).invokedUpgrade
        = true ∧
      (pupdateApt (some ["d"])
          ⟨.ran ⟨false, [1], [2]⟩, .ran ⟨true, [3], [4]⟩, true, true⟩).files
        = [(pathJoin ["d"] "local.stdout.log",
              Output.stdout ⟨false, [1], [2]⟩ ++ g.stdout),
           (pathJoin ["d"] "local.stderr.log",
              Output.stderr ⟨false, [1], [2]⟩ ++ g.stderr)])) :=
  localShortCircuit ⟨.ran ⟨false, [1], [2]⟩, .ran ⟨true, [3], [4]⟩, true, true⟩
    ["d"] ⟨false, [1], [2]⟩ rfl rfl rfl

/-- C7: logs go under a run-scoped directory — the configured base joined
with the run's start timestamp, so runs with different timestamps use
different directories — with exactly two artifacts per remote target,
remote.stdout.log and remote.stderr.log holding its two captured streams,
and for the local step local.stdout.log and local.stderr.log holding the
concatenation of all attempted local sub-commands' streams. -/
theorem logArtifactLayout (baseDir : FsPath) (ts1 ts2 : String) (r : String)
    (out : Output) (ctx : RemoteCtx) (dir : FsPath) (outputs : List Output)
    (hts : ts1 ≠ ts2)
    (hcmd : ctx.cmd = SpawnResult.ran out)
    (hw1 : ctx.stdoutWriteOk = true) (hw2 : ctx.stderrWriteOk = true) :
    runLogDir (some baseDir) ts1 ≠ runLogDir (some baseDir) ts2 ∧
    (pupdateRemote r (some dir) ctx).1
      = [(pathJoin dir (r ++ ".stdout.log"), out.stdout),
         (pathJoin dir (r ++ ".stderr.log"), out.stderr)] ∧
    (aptLog outputs (some dir) true true).1
      = [(pathJoin dir "local.stdout.log", (outputs.map Output.stdout).flatten),
         (pathJoin dir "local.stderr.log", (outputs.map Output.stderr).flatten)] := by
  refine ⟨?_, ?_, ?_⟩
  · intro h
    apply hts
    have h2 : baseDir ++ [ts1] = baseDir ++ [ts2] := by
      simpa [runLogDir, pathJoin] using h
    simpa using List.append_cancel_left h2
  · simp [pupdateRemote, hcmd, hw1, hw2]
  · simp [aptLog]

/-- C7 witness: the layout at a concrete run directory, remote and pair of
local outputs. -/
theorem logArtifactLayoutWitness :
    runLogDir (some ["logs"]) "t1" ≠ runLogDir (some ["logs"]) "t2" ∧
    (pupdateRemote "a" (some ["logs", "t1"]) ctxSuccess).1
      = [(pathJoin ["logs", "t1"] ("a" ++ ".stdout.log"),
            Output.stdout ⟨true, [], []⟩),
         (pathJoin ["logs", "t1"] ("a" ++ ".stderr.log"),
            Output.stderr ⟨true, [], []⟩)] ∧
    (aptLog [⟨false, [1], [2]⟩, ⟨true, [3], [4]⟩] (some ["logs", "t1"]) true true).1
      = [(pathJoin ["logs", "t1"] "local.stdout.log",
            (([⟨false, [1], [2]⟩, ⟨true, [3], [4]⟩] : List Output).map
              Output.stdout).flatten),
         (pathJoin ["logs", "t1"] "local.stderr.log",
            (([⟨false, [1], [2]⟩, ⟨true, [3], [4]⟩] : List Output).map
              Output.stderr).flatten)] :=
  logArtifactLayout ["logs"] "t1" "t2" "a" ⟨true, [], []⟩ ctxSuccess
    ["logs", "t1"] [⟨false, [1], [2]⟩, ⟨true, [3], [4]⟩]
    (by decide) rfl rfl rfl

/-- The local section never emits a remoteDone event. -/
theorem localPhase_no_remoteDone (logDir : Option FsPath) (ctx : LocalCtx)
    (r : String) :
    Event.remoteDone r ∉ (localPhase logDir ctx).1 := by
  rcases h : (pupdateApt logDir ctx).result with x | b <;> simp [localPhase, h]

/-- In a concatenation whose first part has no Q-element and whose second
part has no P-element, every P-position precedes every Q-position. -/
theorem no_cross_positions {α : Type} (l1 l2 : List α) (P Q : α → Prop)
    (h1 : ∀ x ∈ l1, ¬ Q x) (h2 : ∀ x ∈ l2, ¬ P x)
    (i j : Nat) (hi : i < (l1 ++ l2).length) (hj : j < (l1 ++ l2).length)
    (hP : P ((l1 ++ l2).get ⟨j, hj⟩)) (hQ : Q ((l1 ++ l2).get ⟨i, hi⟩)) :
    j < i := by
  rw [List.get_eq_getElem] at hP hQ
  have hjlt : j < l1.length := by
    by_contra hle
    push_neg at hle
    rw [List.getElem_append_right hle] at hP
    exact h2 _ (List.getElem_mem _) hP
  have hige : l1.length ≤ i := by
    by_contra hlt
    push_neg at hlt
    rw [List.getElem_append_left hlt] at hQ
    exact h1 _ (List.getElem_mem _) hQ
  omega

/-- Specialisation of the position lemma to an event list split into a
remote part (no localStart) and a local part (no remoteDone). -/
theorem cross_aux (evs l1 l2 : List Event) (hevs : evs = l1 ++ l2)
    (h1 : Event.localStart ∉ l1) (h2 : ∀ r, Event.remoteDone r ∉ l2)
    (i j : Nat) (hi : i < evs.length) (hj : j < evs.length)
    (hloc : evs.get ⟨i, hi⟩ = Event.localStart)
    (hrd : ∃ r, evs.get ⟨j, hj⟩ = Event.remoteDone r) : j < i := by
  subst hevs
  obtain ⟨r, hr⟩ := hrd
  exact no_cross_positions l1 l2 (fun e => ∃ r2, e = Event.remoteDone r2)
    (fun e => e = Event.localStart)
    (fun x hx hq => h1 (hq ▸ hx))
    (fun x hx hp => by obtain ⟨r2, hp2⟩ := hp; exact h2 r2 (hp2 ▸ hx))
    i j hi hj ⟨r, hr⟩ hloc

/-- When the remote section completed with a failed list, every remote
unit was awaited: its remoteDone event is among the section's events. -/
theorem remotePhase_ok_done (logDir : Option FsPath)
    (remotes : List (String × RemoteCtx)) (f : List String)
    (h : (remotePhase logDir remotes).2 = Except.ok f) :
    ∀ rc ∈ remotes, Event.remoteDone rc.1 ∈ (remotePhase logDir remotes).1 := by
  intro rc hrc
  have hlen : remotes.length ≠ 0 := by
    intro h0
    rw [List.length_eq_zero] at h0
    subst h0
    simp at hrc
  rw [remotePhase, if_neg hlen] at h ⊢
  simp only [] at h ⊢
  have hdone := awaitLoop_ok_done _ f h
    ((fun rc => (rc.1, (pupdateRemote rc.1 logDir rc.2).2)) rc)
    (List.mem_map_of_mem _ hrc)
  simp only [List.mem_append]
  exact Or.inl (Or.inr hdone)

/-- When every remote unit returns an ordinary verdict, the remote section
completes with some failed list rather than an early-returned error. -/
theorem remotePhase_allOk (logDir : Option FsPath)
    (remotes : List (String × RemoteCtx))
    (h : ∀ rc ∈ remotes, ∃ p, (pupdateRemote rc.1 logDir rc.2).2 = Except.ok p) :
    ∃ f, (remotePhase logDir remotes).2 = Except.ok f := by
  by_cases hlen : remotes.length = 0
  · exact ⟨[], by simp [remotePhase, hlen]⟩
  · obtain ⟨f, hf⟩ := awaitLoop_allOk
      (remotes.map (fun rc => (rc.1, (pupdateRemote rc.1 logDir rc.2).2)))
      (by
        intro t ht
        simp only [List.mem_map] at ht
        obtain ⟨rc, hrc, rfl⟩ := ht
        exact h rc hrc)
    refine ⟨f, ?_⟩
    rw [remotePhase, if_neg hlen]
    exact hf

/-- C6: the local step begins only after the full remote fan-in has
finished: in the run's event order every remoteDone event precedes any
localStart event, and when the local step started at all, every remote
target's unit had completed (its remoteDone event was emitted), so local
and remote updates are never in flight together. -/
theorem localAfterRemoteFanIn (args : Args) (base : Option FsPath)
    (timestamp : String) (remotes : List (String × RemoteCtx)) (lctx : LocalCtx)
    (i j : Nat)
    (hi : i < (mainModel args base timestamp remotes lctx).1.length)
    (hj : j < (mainModel args base timestamp remotes lctx).1.length)
    (hloc : (mainModel args base timestamp remotes lctx).1.get ⟨i, hi⟩
      = Event.localStart)
    (hrd : ∃ r, (mainModel args base timestamp remotes lctx).1.get ⟨j, hj⟩
      = Event.remoteDone r)
    (honly : args.localOnly = false) :
    j < i ∧
    (remotes.all (fun rc =>
      (mainModel args base timestamp remotes lctx).1.contains
        (Event.remoteDone rc.1))) = true := by
  rcases hrp : (remotePhase (runLogDir base timestamp) remotes).2 with e | f
  · exfalso
    have hevs : (mainModel args base timestamp remotes lctx).1
        = (remotePhase (runLogDir base timestamp) remotes).1 := by
      simp [mainModel, honly, hrp]
    apply remotePhase_no_localStart (runLogDir base timestamp) remotes
    rw [← hevs, ← hloc]
    exact List.get_mem _ _ _
  · by_cases hs : args.skipLocal
    · exfalso
      have hevs : (mainModel args base timestamp remotes lctx).1
          = (remotePhase (runLogDir base timestamp) remotes).1 := by
        simp [mainModel, honly, hrp, hs]
      apply remotePhase_no_localStart (runLogDir base timestamp) remotes
      rw [← hevs, ← hloc]
      exact List.get_mem _ _ _
    · have hevs : (mainModel args base timestamp remotes lctx).1
          = (remotePhase (runLogDir base timestamp) remotes).1
            ++ (localPhase (runLogDir base timestamp) lctx).1 := by
        simp [mainModel, honly, hrp, hs]
      constructor
      · exact cross_aux _ _ _ hevs
          (remotePhase_no_localStart _ _)
          (fun r => localPhase_no_remoteDone _ _ r)
          i j hi hj hloc hrd
      · rw [List.all_eq_true]
        intro rc hrc
        have hmem : Event.remoteDone rc.1
            ∈ (mainModel args base timestamp remotes lctx).1 := by
          rw [hevs]
          exact List.mem_append_left _
            (remotePhase_ok_done (runLogDir base timestamp) remotes f hrp rc hrc)
        simpa using hmem

/-- C6 witness: a concrete one-remote run with the local step enabled; the
remoteDone event (index 3) precedes localStart (index 5) and the remote's
unit completed before the local step began. -/
theorem localAfterRemoteFanInWitness :
    3 < 5 ∧
    (([("a", ctxSuccess)] : List (String × RemoteCtx)).all (fun rc =>
      (mainModel ⟨false, false⟩ none "t" [("a", ctxSuccess)] lctxOk).1.contains
        (Event.remoteDone rc.1))) = true :=
  localAfterRemoteFanIn ⟨false, false⟩ none "t" [("a", ctxSuccess)] lctxOk
    5 3 (by decide) (by decide) (by decide) ⟨"a", by decide⟩ rfl

/-- A local environment whose update check runs but fails, with working
log writes: the local step completes with a failure verdict. -/
def lctxFail : LocalCtx := ⟨.ran ⟨false, [], []⟩, .ran ⟨true, [], []⟩, true, true⟩

/-- C8: whenever the run completes — every awaited unit returned an
ordinary verdict and pupdate_apt, when run, returned a verdict — main
returns ok () (process exit status 0) regardless of how many individual
targets failed and of the local verdict. -/
theorem runCompletionExitsZero (args : Args) (base : Option FsPath)
    (timestamp : String) (remotes : List (String × RemoteCtx)) (lctx : LocalCtx)
    (hremote : ∀ rc ∈ remotes, ∃ p,
      (pupdateRemote rc.1 (runLogDir base timestamp) rc.2).2 = Except.ok p)
    (hlocal : ∃ b, (pupdateApt (runLogDir base timestamp) lctx).result
      = Except.ok b) :
    (mainModel args base timestamp remotes lctx).2 = Except.ok () := by
  obtain ⟨b, hb⟩ := hlocal
  have hlp : (localPhase (runLogDir base timestamp) lctx).2 = Except.ok () := by
    simp [localPhase, hb]
  by_cases ho : args.localOnly
  · by_cases hs : args.skipLocal <;> simp [mainModel, ho, hs, hlp]
  · obtain ⟨f, hf⟩ := remotePhase_allOk (runLogDir base timestamp) remotes hremote
    by_cases hs : args.skipLocal <;> simp [mainModel, ho, hs, hf, hlp]

/-- C8 witness: a run where the only remote target failed and the local
update check failed still ends with main returning ok (exit status 0). -/
theorem runCompletionExitsZeroWitness :
    (mainModel ⟨false, false⟩ none "t" [("a", ctxFailure)] lctxFail).2
      = Except.ok () :=
  runCompletionExitsZero ⟨false, false⟩ none "t" [("a", ctxFailure)] lctxFail
    (by
      intro rc hrc
      simp only [List.mem_singleton] at hrc
      subst hrc
      exact ⟨("a", false), rfl⟩)
    ⟨false, rfl⟩
